import Mathlib

/-!
Shallow embedding of `adversarialLogistic.py` (class `AdversarialLogistic`).

Modelling conventions:
* Python/numpy 1-D arrays are `List ℝ`, 2-D arrays are `List (List ℝ)`.
* Floating point arithmetic is modelled by exact real arithmetic.
* External library functions that the engine treats as black boxes are
  parameters of the definitions: `scipy.special.erfinv` is a parameter
  `erfinv : ℝ → ℝ`, the standard normal CDF used by `scipy.stats.norm.cdf`
  is a parameter `Phi : ℝ → ℝ` (so `norm.cdf(0, loc=m, scale=s)` becomes
  `Phi ((0 - m) / s)`), and `np.linalg.inv` is a parameter `inv`.
* Python exceptions are values of `ExnKind`; a function that can raise
  returns `Except ExnKind _` (or an explicit sum such as `SolveOut`).
* Lean's division convention `z / 0 = 0` stands in for IEEE `inf`/`nan`
  where the Python code divides; no Python exception is raised there.
-/

namespace AdvLogit

noncomputable section

open scoped Classical



abbrev Vec := List ℝ


abbrev Mat := List (List ℝ)


/-- Dot product of two real lists, truncating at the shorter one
(the embedding of `u.dot(v)` on equal-length numpy arrays). -/
def dot : Vec → Vec → ℝ
  | a :: u, b :: v => a * b + dot u v
  | _, _ => 0


/-- Scalar multiplication of a vector, `c * v` in numpy. -/
def smulVec (c : ℝ) (v : Vec) : Vec := v.map (fun a => c * a)


/-- Componentwise sum of two vectors, `u + v` in numpy. -/
def vecAdd (u v : Vec) : Vec := List.zipWith (fun a b => a + b) u v


/-- The embedding of `sum(v**2)`. -/
def sumSq (v : Vec) : ℝ := dot v v


/-- The embedding of `np.insert(l, i, a)` for the in-range indices the code
uses (`i = 0` in `__add_constant`, `i = idx_beta0` in the projection). -/
def insertAt : ℕ → ℝ → Vec → Vec
  | 0, a, l => a :: l
  | _ + 1, a, [] => [a]
  | n + 1, a, x :: xs => x :: insertAt n a xs


/-- Matrix-vector product `M.dot(v)`. -/
def matVec (M : Mat) (v : Vec) : Vec := M.map (fun r => dot r v)


/-- The scalar `x.T.dot(M).dot(y)`. -/
def quadForm (x : Vec) (M : Mat) (y : Vec) : ℝ := dot x (matVec M y)


/-- The embedding of `np.outer(u, v)`. -/
def outerMat (u v : Vec) : Mat := u.map (fun a => v.map (fun b => a * b))


/-- Scalar multiplication of a matrix. -/
def smulMat (c : ℝ) (M : Mat) : Mat := M.map (fun r => r.map (fun a => c * a))


/-- Componentwise difference of two matrices. -/
def matSub (A B : Mat) : Mat := List.zipWith (fun r s => List.zipWith (fun a b => a - b) r s) A B


/-- Componentwise sum of two matrices. -/
def matAdd (A B : Mat) : Mat := List.zipWith (fun r s => List.zipWith (fun a b => a + b) r s) A B


/-- Matrix product `A.dot(B)`. -/
def matMul (A B : Mat) : Mat := A.map (fun r => B.transpose.map (fun c => dot r c))


/-- The embedding of `np.diag(w)` for a vector `w`. -/
def diagMat (w : Vec) : Mat :=
  w.mapIdx (fun i wi => w.mapIdx (fun j _ => if i = j then wi else 0))


/-- The embedding of `np.identity(n)`. -/
def idMat (n : ℕ) : Mat :=
  (List.range n).map (fun i => (List.range n).map (fun j => if i = j then (1 : ℝ) else 0))


/-- Python exceptions (and spec error names) that can surface from the engine. -/
inductive ExnKind
  | assertionError
  | arithmeticError
  | valueError
  | missingCov
  | invalidAlpha
  | typeError
  | dimensionError
  deriving DecidableEq


/-- Engine state: the fields of an `AdversarialLogistic` instance that the
core computations read (set once in `__init__` / `compute_covariance`). -/
structure AdvLogistic where
  beta_hat : Vec
  beta_hat_minus0 : Vec
  model_has_intercept : Bool
  X_has_constant : Bool
  idx_beta0 : ℕ
  lower_bound : ℝ
  upper_bound : ℝ
  cov_params : Option Mat


/-- Well-formedness of the coefficient fields: `beta_hat_minus0` is
`beta_hat` with the intercept entry removed at `idx_beta0` (sklearn inserts
the intercept, statsmodels drops `const`); without an intercept the two
coincide. -/
def CoeffWF (E : AdvLogistic) : Prop :=
  if E.model_has_intercept = true then
    E.idx_beta0 ≤ E.beta_hat_minus0.length ∧
      ∃ b0, E.beta_hat = insertAt E.idx_beta0 b0 E.beta_hat_minus0
  else E.beta_hat = E.beta_hat_minus0


/-- `__add_constant` on a single example `x`: prepend the constant `1`
when the model has an intercept but `x` carries no constant column. -/
def addConstantVec (E : AdvLogistic) (x : Vec) : Vec :=
  if E.model_has_intercept = true ∧ E.X_has_constant = false then insertAt 0 1 x else x


/-- `compute_orthogonal_projection`:
`delta = -(x.dot(beta_hat)/sum(beta_hat_minus0**2)) * beta_hat_minus0`,
scaled by `(1 + overshoot)`, with a `0` inserted back at the intercept
index when the model has an intercept. -/
def computeOrthogonalProjection (E : AdvLogistic) (x : Vec) (overshoot : ℝ) : Vec :=
  let delta := smulVec (-(dot x E.beta_hat / sumSq E.beta_hat_minus0)) E.beta_hat_minus0
  let delta := smulVec (1 + overshoot) delta
  if E.model_has_intercept = true then insertAt E.idx_beta0 0 delta else delta


/-- Outcome of `__solve_lambda`: a real root, Python `None`, or a raised
exception. -/
inductive SolveOut
  | val (l : ℝ)
  | noneV
  | exn (e : ExnKind)


/-- The label flip at the top of `__solve_lambda`:
`if y == 0: alpha = 1 - alpha`. -/
def alphaPrime (alpha : ℝ) (y : ℕ) : ℝ := if y = 0 then 1 - alpha else alpha


/-- The matrix `A = np.outer(beta_hat, beta_hat) - 2 * erfinv(2*alpha-1)**2 * cov_params`
of `__solve_lambda`, for the already-flipped level `ap`. -/
def solveAmat (erfinv : ℝ → ℝ) (cov : Mat) (beta : Vec) (ap : ℝ) : Mat :=
  matSub (outerMat beta beta) (smulMat (2 * (erfinv (2 * ap - 1)) ^ 2) cov)


/-- The quadratic's leading coefficient `a = delta.T.dot(A).dot(delta)`. -/
def solve_a (erfinv : ℝ → ℝ) (cov : Mat) (beta : Vec) (ap : ℝ) (delta : Vec) : ℝ :=
  quadForm delta (solveAmat erfinv cov beta ap) delta


/-- The quadratic's middle coefficient `b = x.T.dot(A).dot(delta) + delta.T.dot(A).dot(x)`. -/
def solve_b (erfinv : ℝ → ℝ) (cov : Mat) (beta : Vec) (ap : ℝ) (x delta : Vec) : ℝ :=
  quadForm x (solveAmat erfinv cov beta ap) delta + quadForm delta (solveAmat erfinv cov beta ap) x


/-- The quadratic's constant coefficient `c = x.T.dot(A).dot(x)`. -/
def solve_c (erfinv : ℝ → ℝ) (cov : Mat) (beta : Vec) (ap : ℝ) (x : Vec) : ℝ :=
  quadForm x (solveAmat erfinv cov beta ap) x


/-- The discriminant `DeltaEq2 = b**2 - 4*a*c`. -/
def solveDisc (erfinv : ℝ → ℝ) (cov : Mat) (beta : Vec) (ap : ℝ) (x delta : Vec) : ℝ :=
  (solve_b erfinv cov beta ap x delta) ^ 2
    - 4 * solve_a erfinv cov beta ap delta * solve_c erfinv cov beta ap x


/-- The residual of the unsquared target equation at scaling `l`:
`eq = abs(x_adv.dot(beta_hat) + d * sqrt(x_adv.T.dot(cov).dot(x_adv)))`
with `x_adv = x + l * delta` and `d = sqrt(2) * erfinv(2*alpha-1)`. -/
def solveResid (erfinv : ℝ → ℝ) (cov : Mat) (beta : Vec) (ap : ℝ) (x delta : Vec) (l : ℝ) : ℝ :=
  |dot (vecAdd x (smulVec l delta)) beta +
    Real.sqrt 2 * erfinv (2 * ap - 1) *
      Real.sqrt (quadForm (vecAdd x (smulVec l delta)) cov (vecAdd x (smulVec l delta)))|


/-- The root `lambda1 = (-b - DeltaEq2**0.5) / (2*a)`. -/
def solveRoot1 (erfinv : ℝ → ℝ) (cov : Mat) (beta : Vec) (ap : ℝ) (x delta : Vec) : ℝ :=
  (-(solve_b erfinv cov beta ap x delta) - Real.sqrt (solveDisc erfinv cov beta ap x delta)) /
    (2 * solve_a erfinv cov beta ap delta)


/-- The root `lambda2 = (-b + DeltaEq2**0.5) / (2*a)`. -/
def solveRoot2 (erfinv : ℝ → ℝ) (cov : Mat) (beta : Vec) (ap : ℝ) (x delta : Vec) : ℝ :=
  (-(solve_b erfinv cov beta ap x delta) + Real.sqrt (solveDisc erfinv cov beta ap x delta)) /
    (2 * solve_a erfinv cov beta ap delta)


/-- The body of `__solve_lambda` after the label flip: underflow guard,
repeated-root branch, no-real-solution branch, and the two-root branch with
the residual-based root selection. -/
def solveCore (erfinv : ℝ → ℝ) (cov : Mat) (beta : Vec) (ap : ℝ) (x delta : Vec)
    (tol tolU : ℝ) : SolveOut :=
  if solve_a erfinv cov beta ap delta < tolU then .exn .arithmeticError
  else if |solveDisc erfinv cov beta ap x delta| < tol ∧
      solveDisc erfinv cov beta ap x delta ≤ 0 then
    .val (-(solve_b erfinv cov beta ap x delta) / (2 * solve_a erfinv cov beta ap delta))
  else if solveDisc erfinv cov beta ap x delta < 0 then .noneV
  else if 0 < solveDisc erfinv cov beta ap x delta then
    if solveResid erfinv cov beta ap x delta (solveRoot1 erfinv cov beta ap x delta) < tol then
      .val (solveRoot1 erfinv cov beta ap x delta)
    else if solveResid erfinv cov beta ap x delta (solveRoot2 erfinv cov beta ap x delta) < tol then
      .val (solveRoot2 erfinv cov beta ap x delta)
    else .exn .valueError
  else .exn .valueError


/-- `__solve_lambda(alpha, x, y, delta, tol, tol_underflow)`: asserts the
label, flips `alpha` when `y = 0`, then runs the quadratic solver. -/
def solveLambda (erfinv : ℝ → ℝ) (cov : Mat) (beta : Vec) (alpha : ℝ) (x : Vec) (y : ℕ)
    (delta : Vec) (tol tolU : ℝ) : SolveOut :=
  if y = 0 ∨ y = 1 then solveCore erfinv cov beta (alphaPrime alpha y) x delta tol tolU
  else .exn .assertionError


/-- The three values of the `out_bounds` argument:
`clipping`, `missing`, `nothing`. -/
inductive BoundsMode
  | clipping
  | missing
  | nothing
  deriving DecidableEq


/-- One lower-bound clipping pass: `x_adv[x_adv < lower_bound] = lower_bound`. -/
def clipLower (lb : ℝ) (x : Vec) : Vec := x.map (fun v => if v < lb then lb else v)


/-- One upper-bound clipping pass: `x_adv[x_adv > upper_bound] = upper_bound`. -/
def clipUpper (ub : ℝ) (x : Vec) : Vec := x.map (fun v => if ub < v then ub else v)


/-- `__check_bounds(x_adv, out_bounds)`: the lower-bound pass (return `None`
for `missing`, clip for `clipping`, print only for `nothing`), then the
upper-bound pass on its output. -/
def checkBounds (lb ub : ℝ) (mode : BoundsMode) (x : Vec) : Option Vec :=
  let afterLow : Option Vec :=
    if ∃ v ∈ x, v < lb then
      match mode with
      | .missing => none
      | .clipping => some (clipLower lb x)
      | .nothing => some x
    else some x
  match afterLow with
  | none => none
  | some x1 =>
    if ∃ v ∈ x1, ub < v then
      match mode with
      | .missing => none
      | .clipping => some (clipUpper ub x1)
      | .nothing => some x1
    else some x1


/-- The pointwise image of one coordinate under the two clipping passes. -/
def clipBoth (lb ub v : ℝ) : ℝ :=
  if ub < (if v < lb then lb else v) then ub else (if v < lb then lb else v)


/-- The two model-fitting libraries the constructor accepts. -/
inductive FitLib
  | sklearn
  | statsmodels


/-- The fields of the fitted model object that `compute_covariance` reads:
the library tag, statsmodels' `normalized_cov_params` attribute (when
present), sklearn's regularization parameters, and the external
`predict_proba` (restricted to the class-1 column), a black box here. -/
structure CovModel where
  lib : FitLib
  normalized_cov_params : Option Mat
  C_reg : ℝ
  penalty_l2 : Bool
  predict_proba1 : Mat → Vec


/-- `sm.add_constant(X, prepend=True)`: prepend a column of ones. -/
def addConstantCols (M : Mat) : Mat := M.map (fun r => 1 :: r)


/-- `compute_covariance(X_train)`: statsmodels models hand over their own
normalized covariance (the design matrix is not used at all); sklearn
models build `(X' W X')⁻¹` or the L2 sandwich estimator from the
constant-aligned design matrix, with `np.linalg.inv` as the external
parameter `inv`. -/
def computeCovariance (inv : Mat → Mat) (S : CovModel) (mi xc : Bool)
    (X_train : Option Mat) : Except ExnKind Mat :=
  match S.lib with
  | .statsmodels =>
    match S.normalized_cov_params with
    | some c => .ok c
    | none => .error .valueError
  | .sklearn =>
    match X_train with
    | none => .error .assertionError
    | some X0 =>
      let Xc := if mi = true ∧ xc = false then addConstantCols X0 else X0
      let W := diagMat ((S.predict_proba1 X0).map (fun p => p * (1 - p)))
      let XtWX := matMul (matMul Xc.transpose W) Xc
      if (10000000000 : ℝ) ≤ S.C_reg then .ok (inv XtWX)
      else if S.penalty_l2 = true then
        let iOL := inv (matAdd XtWX (smulMat (2 * (1 / S.C_reg)) (idMat XtWX.length)))
        .ok (matMul (matMul iOL XtWX) iOL)
      else .error .valueError


/-- The Python value `(x.dot(beta_hat) > 0)` compared against the label
`y ∈ {0, 1}` (numpy `True == 1`, `False == 0`). -/
def predLabel (beta x : Vec) : ℕ := if 0 < dot x beta then 1 else 0


/-- `__compute_probability_predx_equals_y`: the linear score is Gaussian
with mean `mu = x·beta_hat` and variance `sigma = x·cov·x`;
`stats.norm.cdf(0, loc=mu, scale=sqrt(sigma))` is `Phi((0-mu)/sqrt(sigma))`
for the (external) standard normal CDF `Phi`. -/
def computeProbabilityPredxEqualsY (Phi : ℝ → ℝ) (cov : Mat) (beta x : Vec) (y : ℕ) : ℝ :=
  if y = 0 then Phi ((0 - dot x beta) / Real.sqrt (quadForm x cov x))
  else 1 - Phi ((0 - dot x beta) / Real.sqrt (quadForm x cov x))


/-- One `result_dict` of `compute_adversarial_perturbation`; the two
adversarial vectors are `Option`s because `__check_bounds` can return
`None` in `missing` mode. -/
structure PerturbResult where
  alpha : ℝ
  lambda_star : ℝ
  x_adv_star : Option Vec
  x_adv_0 : Option Vec


/-- The runtime type of the `alpha` argument: `type(alpha) == float` and
`type(alpha) == list` are the only accepted cases; an int, a numpy
floating scalar and a tuple are distinct runtime types. -/
inductive AlphaArg
  | float (r : ℝ)
  | list (rs : List ℝ)
  | int (n : ℤ)
  | npFloat (r : ℝ)
  | tuple (rs : List ℝ)


/-- The body of the per-`alpha` loop of `compute_adversarial_perturbation`:
the zero-intensity branch when `1 - P[pred(x)=y] ≥ a`, otherwise the call
into `__solve_lambda` (abstracted as `solver`), the post-solve assertions,
and the bounds check on `x_adv_star`. A `None` from the solver makes
`x + lambda_star * delta` raise a `TypeError` in Python. -/
def stepAlpha (solver : ℝ → Vec → ℕ → Vec → SolveOut) (Phi : ℝ → ℝ) (cov : Mat)
    (E : AdvLogistic) (x : Vec) (y : ℕ) (delta : Vec) (xadv0b : Option Vec) (p : ℝ)
    (mode : BoundsMode) (tol : ℝ) (a : ℝ) : Except ExnKind PerturbResult :=
  if a ≤ 1 - p then
    .ok ⟨a, 0, checkBounds E.lower_bound E.upper_bound mode x, xadv0b⟩
  else
    match solver a x y delta with
    | .exn e => .error e
    | .noneV => .error .typeError
    | .val l =>
      if 1/2 + tol < a ∧ predLabel E.beta_hat (vecAdd x (smulVec l delta)) = y then
        .error .assertionError
      else if ¬ (1/2 + tol < a) ∧ a < 1/2 - tol ∧
          predLabel E.beta_hat (vecAdd x (smulVec l delta)) ≠ y then
        .error .assertionError
      else if a ≤ 1 - computeProbabilityPredxEqualsY Phi cov E.beta_hat
          (vecAdd x (smulVec l delta)) y + tol then
        .ok ⟨a, l, checkBounds E.lower_bound E.upper_bound mode (vecAdd x (smulVec l delta)),
          xadv0b⟩
      else .error .assertionError


/-- The `for a in alphas` loop, collecting the emitted `result_dict`s in
input order (a raised exception aborts the whole call). -/
def loopAlphas (step : ℝ → Except ExnKind PerturbResult) :
    List ℝ → Except ExnKind (List PerturbResult)
  | [] => .ok []
  | a :: rest =>
    match step a with
    | .error e => .error e
    | .ok r =>
      match loopAlphas step rest with
      | .error e => .error e
      | .ok rs => .ok (r :: rs)


/-- `compute_adversarial_perturbation(x, y, alpha, out_bounds, tol)`, with
the call into `__solve_lambda` abstracted as the parameter `solver`:
align `x` with the intercept convention, check `cov_params`, assert the
label, project, self-check the projection's label flip, bounds-check
`x_adv_0`, validate the runtime type of `alpha`, compute `P[pred(x)=y]`
once, and run the per-level loop. (The Python function returns the single
dict when one level is requested; we model the emitted dicts as a list in
both cases.) -/
def computeAdversarialPerturbationWith (solver : ℝ → Vec → ℕ → Vec → SolveOut)
    (Phi : ℝ → ℝ) (E : AdvLogistic) (x0 : Vec) (y : ℕ) (arg : AlphaArg)
    (mode : BoundsMode) (tol : ℝ) : Except ExnKind (List PerturbResult) :=
  let x := addConstantVec E x0
  match E.cov_params with
  | none => .error .missingCov
  | some cov =>
    if y = 0 ∨ y = 1 then
      let delta := computeOrthogonalProjection E x (1/1000000)
      let xadv0 := vecAdd x delta
      if (if predLabel E.beta_hat x = y then predLabel E.beta_hat xadv0 ≠ y
          else predLabel E.beta_hat xadv0 = y) then
        match (match arg with
          | .float r => some [r]
          | .list rs => some rs
          | _ => none) with
        | none => .error .invalidAlpha
        | some alphas =>
          loopAlphas (stepAlpha solver Phi cov E x y delta
            (checkBounds E.lower_bound E.upper_bound mode xadv0)
            (computeProbabilityPredxEqualsY Phi cov E.beta_hat x y) mode tol) alphas
      else .error .assertionError
    else .error .assertionError


/-- `compute_adversarial_perturbation` proper: the solver parameter is
`__solve_lambda` on the engine's own coefficient vector and covariance. -/
def computeAdversarialPerturbation (erfinv Phi : ℝ → ℝ) (E : AdvLogistic) (x0 : Vec)
    (y : ℕ) (arg : AlphaArg) (mode : BoundsMode) (tol tolU : ℝ) :
    Except ExnKind (List PerturbResult) :=
  computeAdversarialPerturbationWith
    (fun a xx yy dd =>
      match E.cov_params with
      | some cov => solveLambda erfinv cov E.beta_hat a xx yy dd tol tolU
      | none => .exn .missingCov)
    Phi E x0 y arg mode tol


/-- The alignment property claimed by C9 for an optional returned vector:
when present, it lives in the aligned coordinate space — length
`featureCount + 1`, with the value `1` (or its clipped image) at the
intercept index `0`. -/
def alignedVecOK (lb ub : ℝ) (n : ℕ) (ov : Option Vec) : Prop :=
  ∀ v, ov = some v → v.length = n + 1 ∧
    (v.head? = some 1 ∨ v.head? = some (clipBoth lb ub 1))


theorem dot_nil_right (u : Vec) : dot u [] = 0 := by
  cases u <;> rfl


theorem dot_cons (a b : ℝ) (u v : Vec) : dot (a :: u) (b :: v) = a * b + dot u v := rfl


theorem dot_vecAdd (x d b : Vec) (h : x.length = d.length) :
    dot (vecAdd x d) b = dot x b + dot d b := by
  induction x generalizing d b with
  | nil =>
    have : d = [] := by
      cases d with
      | nil => rfl
      | cons a t => simp at h
    subst this
    simp [vecAdd, dot]
  | cons a t ih =>
    cases d with
    | nil => simp at h
    | cons c s =>
      cases b with
      | nil => simp [vecAdd, dot_nil_right]
      | cons e r =>
        have ht : t.length = s.length := by simpa using h
        simp only [vecAdd, List.zipWith_cons_cons, dot_cons]
        have := ih s r ht
        simp only [vecAdd] at this
        rw [this]
        ring


theorem dot_smulVec (c : ℝ) (u v : Vec) : dot (smulVec c u) v = c * dot u v := by
  induction u generalizing v with
  | nil => simp [smulVec, dot]
  | cons a t ih =>
    cases v with
    | nil => simp [dot_nil_right]
    | cons b r =>
      simp only [smulVec, List.map_cons, dot_cons]
      have := ih r
      simp only [smulVec] at this
      rw [this]
      ring


theorem length_insertAt (i : ℕ) (a : ℝ) (l : Vec) (h : i ≤ l.length) :
    (insertAt i a l).length = l.length + 1 := by
  induction i generalizing l with
  | zero => rfl
  | succ n ih =>
    cases l with
    | nil => simp at h
    | cons x xs =>
      have : n ≤ xs.length := by simpa using h
      simp [insertAt, ih xs this]


theorem dot_insertAt (i : ℕ) (a b : ℝ) (u v : Vec) (hu : i ≤ u.length) (hv : i ≤ v.length) :
    dot (insertAt i a u) (insertAt i b v) = a * b + dot u v := by
  induction i generalizing u v with
  | zero => rfl
  | succ n ih =>
    cases u with
    | nil => simp at hu
    | cons x xs =>
      cases v with
      | nil => simp at hv
      | cons y ys =>
        have hxu : n ≤ xs.length := by simpa using hu
        have hyv : n ≤ ys.length := by simpa using hv
        simp only [insertAt, dot_cons, ih xs ys hxu hyv]
        ring


theorem length_smulVec (c : ℝ) (v : Vec) : (smulVec c v).length = v.length := by
  simp [smulVec]


theorem length_vecAdd (u v : Vec) : (vecAdd u v).length = min u.length v.length := by
  simp [vecAdd]


/-- Claim C2: for any coefficient vector whose non-intercept part is
non-zero and any example `x` (in the aligned coordinate space), the
orthogonal projection computed with `overshoot = 0` satisfies
`(x + delta) · beta_hat = 0` exactly, where a zero is inserted at the
intercept index when the model has an intercept. -/
theorem compute_orthogonal_projection_orthogonal (E : AdvLogistic) (x : Vec)
    (hWF : CoeffWF E) (hS : sumSq E.beta_hat_minus0 ≠ 0)
    (hx : x.length = E.beta_hat.length) :
    dot (vecAdd x (computeOrthogonalProjection E x 0)) E.beta_hat = 0 := by
  by_cases hI : E.model_has_intercept = true
  · rw [CoeffWF, if_pos hI] at hWF
    obtain ⟨hidx, b0, hβ⟩ := hWF
    rw [computeOrthogonalProjection, if_pos hI]
    set c := -(dot x E.beta_hat / sumSq E.beta_hat_minus0) with hc
    have hw : (smulVec (1 + 0) (smulVec c E.beta_hat_minus0)).length
        = E.beta_hat_minus0.length := by
      rw [length_smulVec, length_smulVec]
    have hlen : x.length = (insertAt E.idx_beta0 0
        (smulVec (1 + 0) (smulVec c E.beta_hat_minus0))).length := by
      rw [length_insertAt _ _ _ (by rw [hw]; exact hidx), hw, hx, hβ,
        length_insertAt _ _ _ hidx]
    rw [dot_vecAdd _ _ _ hlen]
    have hins : dot (insertAt E.idx_beta0 0 (smulVec (1 + 0) (smulVec c E.beta_hat_minus0)))
        E.beta_hat = c * sumSq E.beta_hat_minus0 := by
      rw [hβ, dot_insertAt _ _ _ _ _ (by rw [hw]; exact hidx) hidx,
        dot_smulVec, dot_smulVec, sumSq]
      ring
    rw [hins, hc]
    field_simp
  · rw [CoeffWF, if_neg hI] at hWF
    rw [computeOrthogonalProjection, if_neg hI]
    have hlen : x.length = (smulVec (1 + 0)
        (smulVec (-(dot x E.beta_hat / sumSq E.beta_hat_minus0)) E.beta_hat_minus0)).length := by
      rw [length_smulVec, length_smulVec, hx, hWF]
    rw [dot_vecAdd _ _ _ hlen, dot_smulVec, dot_smulVec, hWF, ← sumSq]
    field_simp


/-- Witness for C2 at a concrete model: intercept at index 0, `beta_hat = [1, 2]`,
`beta_hat_minus0 = [2]`, `x = [3, 4]`. -/
theorem compute_orthogonal_projection_orthogonal_witness :
    dot (vecAdd [3, 4] (computeOrthogonalProjection
      ⟨[1, 2], [2], true, false, 0, 0, 0, none⟩ [3, 4] 0))
      ([1, 2] : Vec) = 0 := by
  apply compute_orthogonal_projection_orthogonal
  · rw [CoeffWF]
    refine if_pos rfl ▸ ⟨by simp, 1, rfl⟩
  · show dot [(2 : ℝ)] [2] ≠ 0
    rw [dot_cons, dot_nil_right]
    norm_num
  · rfl


/-- Claim C4: the solver with label `y = 1` at level `alpha` returns the
same outcome (root, `None`, or exception) as the solver with label `y = 0`
at level `1 - alpha`; the flip `alpha ↦ 1 - alpha` is the only asymmetry
between the two label cases. -/
theorem solve_lambda_label_symmetry (erfinv : ℝ → ℝ) (cov : Mat) (beta : Vec) (alpha : ℝ)
    (x delta : Vec) (tol tolU : ℝ) :
    solveLambda erfinv cov beta alpha x 1 delta tol tolU =
      solveLambda erfinv cov beta (1 - alpha) x 0 delta tol tolU := by
  simp only [solveLambda, alphaPrime]
  norm_num


/-- Claim C1, amended: whenever `__solve_lambda` returns a root through the
two-real-roots branch (`DeltaEq2 > 0`), the residual of the unsquared
target equation at that root is below `tol` (the branch only returns a root
after checking exactly this). The original claim extends this to the
repeated-root branch, which returns `-b/(2a)` without any residual check;
`solve_lambda_repeated_root_residual_cex` refutes that part. -/
theorem solve_lambda_two_root_branch_residual (erfinv : ℝ → ℝ) (cov : Mat) (beta : Vec)
    (alpha : ℝ) (x : Vec) (y : ℕ) (delta : Vec) (tol tolU l : ℝ)
    (hD : 0 < solveDisc erfinv cov beta (alphaPrime alpha y) x delta)
    (hok : solveLambda erfinv cov beta alpha x y delta tol tolU = .val l) :
    solveResid erfinv cov beta (alphaPrime alpha y) x delta l < tol := by
  rw [solveLambda] at hok
  by_cases hy : y = 0 ∨ y = 1
  · rw [if_pos hy, solveCore] at hok
    by_cases hc1 : solve_a erfinv cov beta (alphaPrime alpha y) delta < tolU
    · rw [if_pos hc1] at hok
      exact absurd hok (by simp)
    · rw [if_neg hc1, if_neg (fun h => absurd hD (not_lt_of_le h.2)),
        if_neg (not_lt_of_le (le_of_lt hD)), if_pos hD] at hok
      by_cases hr1 : solveResid erfinv cov beta (alphaPrime alpha y) x delta
          (solveRoot1 erfinv cov beta (alphaPrime alpha y) x delta) < tol
      · rw [if_pos hr1] at hok
        injection hok with h
        rwa [← h]
      · rw [if_neg hr1] at hok
        by_cases hr2 : solveResid erfinv cov beta (alphaPrime alpha y) x delta
            (solveRoot2 erfinv cov beta (alphaPrime alpha y) x delta) < tol
        · rw [if_pos hr2] at hok
          injection hok with h
          rwa [← h]
        · rw [if_neg hr2] at hok
          exact absurd hok (by simp)
  · rw [if_neg hy] at hok
    exact absurd hok (by simp)


/-- Claim C5: with the underflow guard satisfied, (1) a discriminant that is
strictly negative beyond the tolerance makes the solver return `None`
without raising, and (2) in the two-roots branch, when neither root's
residual is below `tol`, the solver raises the root-selection error
(Python `ValueError`). -/
theorem solve_lambda_error_handling (erfinv : ℝ → ℝ) (cov : Mat) (beta : Vec)
    (alpha : ℝ) (x : Vec) (y : ℕ) (delta : Vec) (tol tolU : ℝ) (hy : y = 0 ∨ y = 1) :
    (tolU ≤ solve_a erfinv cov beta (alphaPrime alpha y) delta →
      solveDisc erfinv cov beta (alphaPrime alpha y) x delta < 0 →
      tol ≤ |solveDisc erfinv cov beta (alphaPrime alpha y) x delta| →
      solveLambda erfinv cov beta alpha x y delta tol tolU = .noneV) ∧
    (tolU ≤ solve_a erfinv cov beta (alphaPrime alpha y) delta →
      0 < solveDisc erfinv cov beta (alphaPrime alpha y) x delta →
      tol ≤ solveResid erfinv cov beta (alphaPrime alpha y) x delta
        (solveRoot1 erfinv cov beta (alphaPrime alpha y) x delta) →
      tol ≤ solveResid erfinv cov beta (alphaPrime alpha y) x delta
        (solveRoot2 erfinv cov beta (alphaPrime alpha y) x delta) →
      solveLambda erfinv cov beta alpha x y delta tol tolU = .exn .valueError) := by
  constructor
  · intro ha hD htol
    rw [solveLambda, if_pos hy, solveCore, if_neg (not_lt_of_le ha),
      if_neg (fun h => absurd htol (not_le_of_lt h.1)), if_pos hD]
  · intro ha hD h1 h2
    rw [solveLambda, if_pos hy, solveCore, if_neg (not_lt_of_le ha),
      if_neg (fun h => absurd hD (by simpa using not_lt_of_le h.2)),
      if_neg (not_lt_of_le (le_of_lt hD)), if_pos hD,
      if_neg (not_lt_of_le h1), if_neg (not_lt_of_le h2)]


theorem sqrt_four : Real.sqrt 4 = 2 := by
  rw [show (4 : ℝ) = 2 ^ 2 by norm_num, Real.sqrt_sq (by norm_num : (0 : ℝ) ≤ 2)]


theorem sqrt_two_mul_sqrt_half : Real.sqrt 2 * Real.sqrt (1 / 2) = 1 := by
  rw [← Real.sqrt_mul (by norm_num : (0 : ℝ) ≤ 2)]
  norm_num


theorem ev1_a (ap : ℝ) : solve_a (fun _ => 1) [[0,0],[0,1/2]] [1,0] ap [1,0] = 1 := by
  norm_num [solve_a, solveAmat, quadForm, matVec, outerMat, smulMat, matSub, dot]


theorem ev1_b (ap : ℝ) : solve_b (fun _ => 1) [[0,0],[0,1/2]] [1,0] ap [0,1] [1,0] = 0 := by
  norm_num [solve_b, solveAmat, quadForm, matVec, outerMat, smulMat, matSub, dot]


theorem ev1_D (ap : ℝ) : solveDisc (fun _ => 1) [[0,0],[0,1/2]] [1,0] ap [0,1] [1,0] = 4 := by
  norm_num [solveDisc, solve_a, solve_b, solve_c, solveAmat, quadForm, matVec, outerMat,
    smulMat, matSub, dot]


theorem ev1_root1 (ap : ℝ) : solveRoot1 (fun _ => 1) [[0,0],[0,1/2]] [1,0] ap [0,1] [1,0] = -1 := by
  simp only [solveRoot1]
  rw [ev1_a, ev1_b, ev1_D, sqrt_four]
  norm_num


theorem ev1_resid (ap : ℝ) :
    solveResid (fun _ => 1) [[0,0],[0,1/2]] [1,0] ap [0,1] [1,0] (-1) = 0 := by
  have h1 : vecAdd [0,1] (smulVec (-1) [1,0]) = [(-1 : ℝ), 1] := by
    norm_num [vecAdd, smulVec]
  have h2 : quadForm [(-1 : ℝ), 1] [[0,0],[0,1/2]] [(-1 : ℝ), 1] = 1/2 := by
    norm_num [quadForm, matVec, dot]
  have h3 : dot [(-1 : ℝ), 1] [1,0] = -1 := by norm_num [dot]
  simp only [solveResid, h1, h2, h3]
  rw [mul_one, sqrt_two_mul_sqrt_half]
  norm_num


theorem ev1_sl : solveLambda (fun _ => 1) [[0,0],[0,1/2]] [1,0] (19/20) [0,1] 1 [1,0]
    (1/1000000) (1/10000000) = .val (-1) := by
  rw [solveLambda, if_pos (Or.inr rfl), solveCore, ev1_a, ev1_D, ev1_root1, ev1_resid]
  norm_num


theorem ev2_sl : solveLambda (fun _ => 1) [[1,0,0],[0,-1/2,0],[0,0,-1/2]] [1,0,0] (19/20)
    [0,0,-1] 1 [1,1,1] (1/1000000) (1/10000000) = .val 1 := by
  have ha : solve_a (fun _ => (1:ℝ)) [[1,0,0],[0,-1/2,0],[0,0,-1/2]] [1,0,0]
      (alphaPrime (19/20) 1) [1,1,1] = 1 := by
    norm_num [solve_a, solveAmat, quadForm, matVec, outerMat, smulMat, matSub, dot]
  have hb : solve_b (fun _ => (1:ℝ)) [[1,0,0],[0,-1/2,0],[0,0,-1/2]] [1,0,0]
      (alphaPrime (19/20) 1) [0,0,-1] [1,1,1] = -2 := by
    norm_num [solve_b, solveAmat, quadForm, matVec, outerMat, smulMat, matSub, dot]
  have hD : solveDisc (fun _ => (1:ℝ)) [[1,0,0],[0,-1/2,0],[0,0,-1/2]] [1,0,0]
      (alphaPrime (19/20) 1) [0,0,-1] [1,1,1] = 0 := by
    norm_num [solveDisc, solve_a, solve_b, solve_c, solveAmat, quadForm, matVec, outerMat,
      smulMat, matSub, dot]
  rw [solveLambda, if_pos (Or.inr rfl), solveCore, ha, hb, hD]
  norm_num


theorem ev2_resid (ap : ℝ) :
    solveResid (fun _ => 1) [[1,0,0],[0,-1/2,0],[0,0,-1/2]] [1,0,0] ap [0,0,-1] [1,1,1] 1 = 2 := by
  have h1 : vecAdd [0,0,-1] (smulVec 1 [1,1,1]) = [(1 : ℝ), 1, 0] := by
    norm_num [vecAdd, smulVec]
  have h2 : quadForm [(1 : ℝ), 1, 0] [[1,0,0],[0,-1/2,0],[0,0,-1/2]] [(1 : ℝ), 1, 0] = 1/2 := by
    norm_num [quadForm, matVec, dot]
  have h3 : dot [(1 : ℝ), 1, 0] [1,0,0] = 1 := by norm_num [dot]
  simp only [solveResid, h1, h2, h3]
  rw [mul_one, sqrt_two_mul_sqrt_half]
  norm_num


/-- Witness for C1's amended theorem: a concrete two-root run where the
solver returns `λ* = -1` through the `DeltaEq2 > 0` branch, and the
residual at `-1` is below `tol`. -/
theorem solve_lambda_two_root_branch_residual_witness :
    solveLambda (fun _ => 1) [[0,0],[0,1/2]] [1,0] (19/20) [0,1] 1 [1,0]
      (1/1000000) (1/10000000) = .val (-1) ∧
    solveResid (fun _ => 1) [[0,0],[0,1/2]] [1,0] (alphaPrime (19/20) 1) [0,1] [1,0] (-1)
      < 1/1000000 := by
  refine ⟨ev1_sl, solve_lambda_two_root_branch_residual (fun _ => 1) [[0,0],[0,1/2]] [1,0]
    (19/20) [0,1] 1 [1,0] (1/1000000) (1/10000000) (-1) ?_ ev1_sl⟩
  rw [ev1_D]
  norm_num


/-- Counterexample to Claim C1 as stated: on a concrete input the
repeated-root branch (`|DeltaEq2| < tol` and `DeltaEq2 ≤ 0`, here exactly
`0`) returns the non-null root `λ* = 1`, but the residual of the unsquared
target equation at `λ* = 1` is `2`, far above `tol = 1e-6` (the root solves
the squared equation with the wrong sign, and this branch never checks the
residual). -/
theorem solve_lambda_repeated_root_residual_cex :
    solveLambda (fun _ => 1) [[1,0,0],[0,-1/2,0],[0,0,-1/2]] [1,0,0] (19/20)
      [0,0,-1] 1 [1,1,1] (1/1000000) (1/10000000) = .val 1 ∧
    ¬ solveResid (fun _ => 1) [[1,0,0],[0,-1/2,0],[0,0,-1/2]] [1,0,0]
      (alphaPrime (19/20) 1) [0,0,-1] [1,1,1] 1 < 1/1000000 := by
  refine ⟨ev2_sl, ?_⟩
  rw [ev2_resid]
  norm_num


/-- Witness for C5 at concrete inputs: a strictly negative discriminant
(`D = -8`) yields `None`, and a positive discriminant (`D = 4`) with both
roots failing the residual check yields the root-selection `ValueError`. -/
theorem solve_lambda_error_handling_witness :
    solveLambda (fun _ => 1) [[0,0],[0,-1]] [1,0] (19/20) [0,1] 1 [1,0]
      (1/1000000) (1/10000000) = .noneV ∧
    solveLambda (fun _ => 1) [[1,0],[0,-1/2]] [1,0] (19/20) [1,0] 1 [0,1]
      (1/1000000) (1/10000000) = .exn .valueError := by
  have ha3 : ∀ ap, solve_a (fun _ => (1:ℝ)) [[0,0],[0,-1]] [1,0] ap [1,0] = 1 := fun ap => by
    norm_num [solve_a, solveAmat, quadForm, matVec, outerMat, smulMat, matSub, dot]
  have hD3 : ∀ ap, solveDisc (fun _ => (1:ℝ)) [[0,0],[0,-1]] [1,0] ap [0,1] [1,0] = -8 :=
    fun ap => by
      norm_num [solveDisc, solve_a, solve_b, solve_c, solveAmat, quadForm, matVec, outerMat,
        smulMat, matSub, dot]
  have ha4 : ∀ ap, solve_a (fun _ => (1:ℝ)) [[1,0],[0,-1/2]] [1,0] ap [0,1] = 1 := fun ap => by
    norm_num [solve_a, solveAmat, quadForm, matVec, outerMat, smulMat, matSub, dot]
  have hb4 : ∀ ap, solve_b (fun _ => (1:ℝ)) [[1,0],[0,-1/2]] [1,0] ap [1,0] [0,1] = 0 :=
    fun ap => by
      norm_num [solve_b, solveAmat, quadForm, matVec, outerMat, smulMat, matSub, dot]
  have hD4 : ∀ ap, solveDisc (fun _ => (1:ℝ)) [[1,0],[0,-1/2]] [1,0] ap [1,0] [0,1] = 4 :=
    fun ap => by
      norm_num [solveDisc, solve_a, solve_b, solve_c, solveAmat, quadForm, matVec, outerMat,
        smulMat, matSub, dot]
  have hroot1 : ∀ ap, solveRoot1 (fun _ => (1:ℝ)) [[1,0],[0,-1/2]] [1,0] ap [1,0] [0,1] = -1 :=
    fun ap => by
      simp only [solveRoot1]
      rw [ha4, hb4, hD4, sqrt_four]
      norm_num
  have hroot2 : ∀ ap, solveRoot2 (fun _ => (1:ℝ)) [[1,0],[0,-1/2]] [1,0] ap [1,0] [0,1] = 1 :=
    fun ap => by
      simp only [solveRoot2]
      rw [ha4, hb4, hD4, sqrt_four]
      norm_num
  have hres1 : ∀ ap, solveResid (fun _ => (1:ℝ)) [[1,0],[0,-1/2]] [1,0] ap [1,0] [0,1] (-1)
      = 2 := fun ap => by
    have h1 : vecAdd [1,0] (smulVec (-1) [0,1]) = [(1 : ℝ), -1] := by
      norm_num [vecAdd, smulVec]
    have h2 : quadForm [(1 : ℝ), -1] [[1,0],[0,-1/2]] [(1 : ℝ), -1] = 1/2 := by
      norm_num [quadForm, matVec, dot]
    have h3 : dot [(1 : ℝ), -1] [1,0] = 1 := by norm_num [dot]
    simp only [solveResid, h1, h2, h3]
    rw [mul_one, sqrt_two_mul_sqrt_half]
    norm_num
  have hres2 : ∀ ap, solveResid (fun _ => (1:ℝ)) [[1,0],[0,-1/2]] [1,0] ap [1,0] [0,1] 1
      = 2 := fun ap => by
    have h1 : vecAdd [1,0] (smulVec 1 [0,1]) = [(1 : ℝ), 1] := by
      norm_num [vecAdd, smulVec]
    have h2 : quadForm [(1 : ℝ), 1] [[1,0],[0,-1/2]] [(1 : ℝ), 1] = 1/2 := by
      norm_num [quadForm, matVec, dot]
    have h3 : dot [(1 : ℝ), 1] [1,0] = 1 := by norm_num [dot]
    simp only [solveResid, h1, h2, h3]
    rw [mul_one, sqrt_two_mul_sqrt_half]
    norm_num
  constructor
  · refine (solve_lambda_error_handling (fun _ => 1) [[0,0],[0,-1]] [1,0] (19/20) [0,1] 1
      [1,0] (1/1000000) (1/10000000) (Or.inr rfl)).1 ?_ ?_ ?_
    · rw [ha3]
      norm_num
    · rw [hD3]
      norm_num
    · rw [hD3]
      norm_num
  · refine (solve_lambda_error_handling (fun _ => 1) [[1,0],[0,-1/2]] [1,0] (19/20) [1,0] 1
      [0,1] (1/1000000) (1/10000000) (Or.inr rfl)).2 ?_ ?_ ?_ ?_
    · rw [ha4]
      norm_num
    · rw [hD4]
      norm_num
    · rw [hroot1, hres1]
      norm_num
    · rw [hroot2, hres2]
      norm_num


theorem clipLower_map_eq (lb : ℝ) (x : Vec) (h : ¬ ∃ v ∈ x, v < lb) :
    clipLower lb x = x := by
  rw [clipLower]
  conv_rhs => rw [show x = x.map id from (List.map_id x).symm]
  refine List.map_congr_left (fun v hv => ?_)
  rw [if_neg (fun hlt => h ⟨v, hv, hlt⟩)]
  rfl


theorem clipUpper_map_eq (ub : ℝ) (x : Vec) (h : ¬ ∃ v ∈ x, ub < v) :
    clipUpper ub x = x := by
  rw [clipUpper]
  conv_rhs => rw [show x = x.map id from (List.map_id x).symm]
  refine List.map_congr_left (fun v hv => ?_)
  rw [if_neg (fun hlt => h ⟨v, hv, hlt⟩)]
  rfl


theorem clipUpper_clipLower (lb ub : ℝ) (x : Vec) :
    clipUpper ub (clipLower lb x) = x.map (clipBoth lb ub) := by
  rw [clipUpper, clipLower, List.map_map]
  rfl


theorem checkBounds_clipping (lb ub : ℝ) (x : Vec) :
    checkBounds lb ub .clipping x = some (x.map (clipBoth lb ub)) := by
  rw [checkBounds]
  by_cases h1 : ∃ v ∈ x, v < lb
  · rw [if_pos h1]
    show (if ∃ v ∈ clipLower lb x, ub < v then some (clipUpper ub (clipLower lb x))
      else some (clipLower lb x)) = some (x.map (clipBoth lb ub))
    by_cases h2 : ∃ v ∈ clipLower lb x, ub < v
    · rw [if_pos h2, clipUpper_clipLower]
    · rw [if_neg h2, ← clipUpper_map_eq ub (clipLower lb x) h2, clipUpper_clipLower]
  · rw [if_neg h1]
    show (if ∃ v ∈ x, ub < v then some (clipUpper ub x) else some x)
      = some (x.map (clipBoth lb ub))
    have hx : clipLower lb x = x := clipLower_map_eq lb x h1
    have key2 : clipUpper ub x = x.map (clipBoth lb ub) := by
      conv_lhs => rw [← hx]
      exact clipUpper_clipLower lb ub x
    by_cases h2 : ∃ v ∈ x, ub < v
    · rw [if_pos h2, key2]
    · rw [if_neg h2]
      have hid : x.map (clipBoth lb ub) = x := by
        have h3 : ¬ ∃ v ∈ clipLower lb x, ub < v := by
          rw [hx]
          exact h2
        rw [← clipUpper_clipLower, clipUpper_map_eq ub (clipLower lb x) h3, hx]
      rw [hid]


theorem checkBounds_nothing (lb ub : ℝ) (x : Vec) :
    checkBounds lb ub .nothing x = some x := by
  rw [checkBounds]
  by_cases h1 : ∃ v ∈ x, v < lb
  · simp only [if_pos h1]
    by_cases h2 : ∃ v ∈ x, ub < v
    · simp only [if_pos h2]
    · simp only [if_neg h2]
  · simp only [if_neg h1]
    by_cases h2 : ∃ v ∈ x, ub < v
    · simp only [if_pos h2]
    · simp only [if_neg h2]


/-- Claim C8: for a perturbed vector with at least one coordinate outside
the bounds, `missing` discards the whole vector (`None`), `nothing` returns
it unmodified, and `clipping` returns the pointwise-clipped vector, where
out-of-range coordinates are set exactly to the violated bound and in-range
coordinates are unchanged. -/
theorem check_bounds_modes (lb ub : ℝ) (x : Vec) (h : ∃ v ∈ x, ub < v ∨ v < lb) :
    checkBounds lb ub .missing x = none ∧
    checkBounds lb ub .nothing x = some x ∧
    checkBounds lb ub .clipping x = some (x.map (clipBoth lb ub)) ∧
    (∀ v, ub < v → clipBoth lb ub v = ub) ∧
    (∀ v, v < lb → lb ≤ ub → clipBoth lb ub v = lb) ∧
    (∀ v, lb ≤ v → v ≤ ub → clipBoth lb ub v = v) := by
  refine ⟨?_, checkBounds_nothing lb ub x, checkBounds_clipping lb ub x, ?_, ?_, ?_⟩
  · rw [checkBounds]
    by_cases h1 : ∃ v ∈ x, v < lb
    · simp only [if_pos h1]
    · simp only [if_neg h1]
      obtain ⟨v, hv, hcase⟩ := h
      have h2 : ∃ v ∈ x, ub < v := by
        rcases hcase with hub | hlb
        · exact ⟨v, hv, hub⟩
        · exact absurd ⟨v, hv, hlb⟩ h1
      simp only [if_pos h2]
  · intro v hv
    rw [clipBoth]
    by_cases hlo : v < lb
    · rw [if_pos hlo, if_pos (lt_trans hv hlo)]
    · rw [if_neg hlo, if_pos hv]
  · intro v hv hle
    rw [clipBoth, if_pos hv, if_neg (not_lt.mpr hle)]
  · intro v hlo hhi
    rw [clipBoth, if_neg (not_lt.mpr hlo), if_neg (not_lt.mpr hhi)]


/-- Witness for C8: `x = [0, 2, 5]` with bounds `[1, 3]`; the coordinate `5`
exceeds the upper bound and `0` is below the lower bound. -/
theorem check_bounds_modes_witness :
    checkBounds 1 3 .missing [0, 2, 5] = none ∧
    checkBounds 1 3 .nothing [0, 2, 5] = some [0, 2, 5] ∧
    checkBounds 1 3 .clipping [0, 2, 5] = some ([(0 : ℝ), 2, 5].map (clipBoth 1 3)) := by
  have h := check_bounds_modes 1 3 [0, 2, 5] ⟨5, by norm_num, Or.inl (by norm_num)⟩
  exact ⟨h.1, h.2.1, h.2.2.1⟩


/-- Claim C6 evaluation: `compute_orthogonal_projection` contains no guard
for a zero non-intercept coefficient vector. On `beta_hat = beta_hat_minus0
= [0, 0]` and `x = [1, 2]` it performs the division by
`sum(beta_hat_minus0**2) = 0` and returns normally (under the real-field
convention `z / 0 = 0` the result is the zero vector; in IEEE floating
point it is a NaN vector). No `DegenerateModelError` — indeed no exception
path at all — exists in the function. -/
theorem compute_orthogonal_projection_zero_beta_eval :
    computeOrthogonalProjection ⟨[0, 0], [0, 0], false, false, 0, 0, 0, none⟩ [1, 2]
      (1/1000000) = [0, 0] := by
  norm_num [computeOrthogonalProjection, sumSq, dot, smulVec]


/-- Claim C7, amended: `compute_covariance` performs no dimensionality
check — no input makes it fail with a dimension error, and in the
statsmodels path the design matrix is ignored entirely, so a design matrix
of any mismatched dimension still yields the model-provided covariance.
(In the sklearn paths a mismatched matrix could only be rejected by the
external `predict_proba`, not by this code.) -/
theorem compute_covariance_no_dimension_check :
    (∀ (inv : Mat → Mat) (S : CovModel) (mi xc : Bool) (X : Option Mat),
      computeCovariance inv S mi xc X ≠ .error .dimensionError) ∧
    (∀ (inv : Mat → Mat) (S : CovModel) (mi xc : Bool) (X : Option Mat) (c : Mat),
      S.lib = .statsmodels → S.normalized_cov_params = some c →
      computeCovariance inv S mi xc X = .ok c) := by
  constructor
  · intro inv S mi xc X h
    rcases S with ⟨lib, ncp, C, pen, pp⟩
    cases lib
    · rcases X with _ | X0
      · simp [computeCovariance] at h
      · rw [computeCovariance] at h
        split_ifs at h <;> simp at h
    · rcases ncp with _ | c <;> simp [computeCovariance] at h
  · intro inv S mi xc X c hl hn
    simp only [computeCovariance, hl, hn]


/-- Witness for C7's amended theorem: a statsmodels model with a 1×1
covariance accepts a design matrix with 5 columns and returns the model
covariance unchanged. -/
theorem compute_covariance_no_dimension_check_witness :
    computeCovariance (fun M => M) ⟨.statsmodels, some [[1]], 1, true, fun _ => []⟩
      false false (some [[1, 2, 3, 4, 5]]) = .ok [[1]] :=
  compute_covariance_no_dimension_check.2 (fun M => M)
    ⟨.statsmodels, some [[1]], 1, true, fun _ => []⟩ false false
    (some [[1, 2, 3, 4, 5]]) [[1]] rfl rfl


/-- Counterexample to Claim C7 as stated: a design matrix with 5 columns
against a model whose coefficient/covariance dimension is 1 does not fail
with a dimension error — the statsmodels path of `compute_covariance`
returns the model covariance and raises nothing. -/
theorem compute_covariance_dimension_mismatch_cex :
    computeCovariance (fun M => M) ⟨.statsmodels, some [[1]], 1, true, fun _ => []⟩
      false false (some [[1, 2, 3, 4, 5]]) = .ok [[1]] ∧
    ∀ e, computeCovariance (fun M => M) ⟨.statsmodels, some [[1]], 1, true, fun _ => []⟩
      false false (some [[1, 2, 3, 4, 5]]) ≠ .error e := by
  constructor
  · simp [computeCovariance]
  · intro e
    simp [computeCovariance]


theorem zero_intensity_aux (solver : ℝ → Vec → ℕ → Vec → SolveOut) (Phi : ℝ → ℝ)
    (E : AdvLogistic) (x0 : Vec) (y : ℕ) (a : ℝ) (mode : BoundsMode) (tol : ℝ) (cov : Mat)
    (hcov : E.cov_params = some cov) (hy : y = 0 ∨ y = 1)
    (hassert : if predLabel E.beta_hat (addConstantVec E x0) = y then
        predLabel E.beta_hat (vecAdd (addConstantVec E x0)
          (computeOrthogonalProjection E (addConstantVec E x0) (1/1000000))) ≠ y
      else predLabel E.beta_hat (vecAdd (addConstantVec E x0)
          (computeOrthogonalProjection E (addConstantVec E x0) (1/1000000))) = y)
    (hp : a ≤ 1 - computeProbabilityPredxEqualsY Phi cov E.beta_hat (addConstantVec E x0) y) :
    computeAdversarialPerturbationWith solver Phi E x0 y (.float a) mode tol =
      .ok [⟨a, 0, checkBounds E.lower_bound E.upper_bound mode (addConstantVec E x0),
        checkBounds E.lower_bound E.upper_bound mode (vecAdd (addConstantVec E x0)
          (computeOrthogonalProjection E (addConstantVec E x0) (1/1000000)))⟩] := by
  simp only [computeAdversarialPerturbationWith, hcov, if_pos hy, if_pos hassert]
  simp only [loopAlphas, stepAlpha, if_pos hp]


/-- Claim C3, amended: whenever `1 - P[pred(x)=y] ≥ a`, the orchestrator
emits for `a` a result with `lambda_star = 0` and `x_adv_star` equal to the
bounds-enforced image of `x`, without invoking the lambda solver (the
emission is the same for every solver); `x_adv_star` is exactly `x` when
`out_bounds = 'nothing'`. The original claim's "`x_adv*` equal to `x`
exactly" fails for the other bounds modes because the orchestrator passes
the zero-intensity `x_adv_star` through `__check_bounds` as well
(`compute_perturbation_zero_intensity_cex`). -/
theorem compute_perturbation_zero_intensity (solver : ℝ → Vec → ℕ → Vec → SolveOut)
    (Phi : ℝ → ℝ) (E : AdvLogistic) (x0 : Vec) (y : ℕ) (a : ℝ) (mode : BoundsMode)
    (tol : ℝ) (cov : Mat)
    (hcov : E.cov_params = some cov) (hy : y = 0 ∨ y = 1)
    (hassert : if predLabel E.beta_hat (addConstantVec E x0) = y then
        predLabel E.beta_hat (vecAdd (addConstantVec E x0)
          (computeOrthogonalProjection E (addConstantVec E x0) (1/1000000))) ≠ y
      else predLabel E.beta_hat (vecAdd (addConstantVec E x0)
          (computeOrthogonalProjection E (addConstantVec E x0) (1/1000000))) = y)
    (hp : a ≤ 1 - computeProbabilityPredxEqualsY Phi cov E.beta_hat (addConstantVec E x0) y) :
    computeAdversarialPerturbationWith solver Phi E x0 y (.float a) mode tol =
      .ok [⟨a, 0, checkBounds E.lower_bound E.upper_bound mode (addConstantVec E x0),
        checkBounds E.lower_bound E.upper_bound mode (vecAdd (addConstantVec E x0)
          (computeOrthogonalProjection E (addConstantVec E x0) (1/1000000)))⟩] ∧
    (∀ solver2, computeAdversarialPerturbationWith solver2 Phi E x0 y (.float a) mode tol =
      computeAdversarialPerturbationWith solver Phi E x0 y (.float a) mode tol) ∧
    (mode = .nothing →
      computeAdversarialPerturbationWith solver Phi E x0 y (.float a) .nothing tol =
        .ok [⟨a, 0, some (addConstantVec E x0), some (vecAdd (addConstantVec E x0)
          (computeOrthogonalProjection E (addConstantVec E x0) (1/1000000)))⟩]) := by
  refine ⟨zero_intensity_aux solver Phi E x0 y a mode tol cov hcov hy hassert hp,
    fun solver2 => (zero_intensity_aux solver2 Phi E x0 y a mode tol cov hcov hy hassert hp).trans
      (zero_intensity_aux solver Phi E x0 y a mode tol cov hcov hy hassert hp).symm, fun _ => ?_⟩
  rw [zero_intensity_aux solver Phi E x0 y a .nothing tol cov hcov hy hassert hp,
    checkBounds_nothing, checkBounds_nothing]


/-- Witness for C3's amended theorem: a concrete no-intercept model,
`x = [2]`, `y = 1`, `alpha = 0.3`, `out_bounds = 'nothing'`; the
zero-intensity branch fires and returns `lambda_star = 0` with
`x_adv_star = x` exactly. -/
theorem compute_perturbation_zero_intensity_witness :
    computeAdversarialPerturbationWith (fun _ _ _ _ => SolveOut.noneV) (fun _ => 2/5)
      ⟨[1], [1], false, false, 0, -100, 100, some [[1]]⟩ [2] 1 (.float (3/10)) .nothing
      (1/1000000) = .ok [⟨3/10, 0, some [2], some [-(1/500000)]⟩] := by
  have hx : addConstantVec ⟨[1], [1], false, false, 0, -100, 100, some [[1]]⟩ [2]
      = [(2 : ℝ)] := by
    rw [addConstantVec, if_neg]
    simp
  have hdelta : computeOrthogonalProjection ⟨[1], [1], false, false, 0, -100, 100, some [[1]]⟩
      [(2 : ℝ)] (1/1000000) = [-(2 + 1/500000)] := by
    rw [computeOrthogonalProjection, if_neg]
    · norm_num [sumSq, dot, smulVec]
    · simp
  have hadv : vecAdd [(2 : ℝ)] [-(2 + 1/500000)] = [-(1/500000 : ℝ)] := by
    norm_num [vecAdd]
  have h := (compute_perturbation_zero_intensity (fun _ _ _ _ => SolveOut.noneV) (fun _ => 2/5)
    ⟨[1], [1], false, false, 0, -100, 100, some [[1]]⟩ [2] 1 (3/10) .nothing (1/1000000) [[1]]
    rfl (Or.inr rfl) ?_ ?_).2.2 rfl
  · rw [h, hx, hdelta, hadv]
  · rw [hx, hdelta, hadv]
    have hpl : predLabel [1] [(2 : ℝ)] = 1 := by
      norm_num [predLabel, dot]
    have hpl0 : predLabel [1] [-(1/500000 : ℝ)] = 0 := by
      norm_num [predLabel, dot]
    rw [if_pos hpl]
    rw [hpl0]
    norm_num
  · rw [hx]
    norm_num [computeProbabilityPredxEqualsY, quadForm, matVec, dot]


/-- Counterexample to Claim C3 as stated: in `clipping` mode with
`lower_bound = 3`, the zero-intensity branch fires (`lambda_star = 0`) but
the emitted `x_adv_star` is `[3]`, the clipped image of the aligned
`x = [2]` — not `x` exactly — because the orchestrator bounds-checks
`x_adv_star` in the zero-intensity branch too. -/
theorem compute_perturbation_zero_intensity_cex :
    computeAdversarialPerturbationWith (fun _ _ _ _ => SolveOut.noneV) (fun _ => 2/5)
      ⟨[1], [1], false, false, 0, 3, 10, some [[1]]⟩ [2] 1 (.float (3/10)) .clipping
      (1/1000000) = .ok [⟨3/10, 0, some [3], some [3]⟩] ∧
    addConstantVec ⟨[1], [1], false, false, 0, 3, 10, some [[1]]⟩ [2] = [2] ∧
    some ([3] : Vec) ≠ some ([2] : Vec) := by
  have hx : addConstantVec ⟨[1], [1], false, false, 0, 3, 10, some [[1]]⟩ [2]
      = [(2 : ℝ)] := by
    rw [addConstantVec, if_neg]
    simp
  have hdelta : computeOrthogonalProjection ⟨[1], [1], false, false, 0, 3, 10, some [[1]]⟩
      [(2 : ℝ)] (1/1000000) = [-(2 + 1/500000)] := by
    rw [computeOrthogonalProjection, if_neg]
    · norm_num [sumSq, dot, smulVec]
    · simp
  have hadv : vecAdd [(2 : ℝ)] [-(2 + 1/500000)] = [-(1/500000 : ℝ)] := by
    norm_num [vecAdd]
  have hpl : predLabel [1] [(2 : ℝ)] = 1 := by
    norm_num [predLabel, dot]
  have hpl0 : predLabel [1] [-(1/500000 : ℝ)] = 0 := by
    norm_num [predLabel, dot]
  have hb1 : checkBounds 3 10 .clipping [(2 : ℝ)] = some [3] := by
    rw [checkBounds_clipping]
    norm_num [clipBoth]
  have hb0 : checkBounds 3 10 .clipping [-(1/500000 : ℝ)] = some [3] := by
    rw [checkBounds_clipping]
    norm_num [clipBoth]
  refine ⟨?_, hx, by simp⟩
  simp only [computeAdversarialPerturbationWith, hx, hdelta, hadv, or_true, ite_true]
  rw [if_pos (by rw [if_pos hpl, hpl0]; norm_num)]
  simp only [loopAlphas, stepAlpha]
  rw [if_pos (by norm_num [computeProbabilityPredxEqualsY, quadForm, matVec, dot]), hb1, hb0]


/-- Claim C10: once the stages before the runtime type check of `alpha`
succeed (covariance present, valid label, projection self-check), any
`alpha` whose runtime type is not exactly `float` or `list` — an int, a
numpy floating scalar, a tuple — makes the orchestrator raise the
invalid-alpha error, and no perturbation result is emitted. -/
theorem compute_perturbation_invalid_alpha (erfinv Phi : ℝ → ℝ) (E : AdvLogistic) (x0 : Vec)
    (y : ℕ) (arg : AlphaArg) (mode : BoundsMode) (tol tolU : ℝ) (cov : Mat)
    (hcov : E.cov_params = some cov) (hy : y = 0 ∨ y = 1)
    (hassert : if predLabel E.beta_hat (addConstantVec E x0) = y then
        predLabel E.beta_hat (vecAdd (addConstantVec E x0)
          (computeOrthogonalProjection E (addConstantVec E x0) (1/1000000))) ≠ y
      else predLabel E.beta_hat (vecAdd (addConstantVec E x0)
          (computeOrthogonalProjection E (addConstantVec E x0) (1/1000000))) = y)
    (h1 : ∀ r, arg ≠ .float r) (h2 : ∀ rs, arg ≠ .list rs) :
    computeAdversarialPerturbation erfinv Phi E x0 y arg mode tol tolU =
      .error .invalidAlpha := by
  rw [computeAdversarialPerturbation]
  cases arg with
  | float r => exact absurd rfl (h1 r)
  | list rs => exact absurd rfl (h2 rs)
  | int n =>
    simp only [computeAdversarialPerturbationWith, hcov, if_pos hy, if_pos hassert]
  | npFloat r =>
    simp only [computeAdversarialPerturbationWith, hcov, if_pos hy, if_pos hassert]
  | tuple rs =>
    simp only [computeAdversarialPerturbationWith, hcov, if_pos hy, if_pos hassert]


/-- Witness for C10: a concrete valid engine and example, with `alpha`
passed as the integer `1`: the orchestrator raises the invalid-alpha
error. -/
theorem compute_perturbation_invalid_alpha_witness :
    computeAdversarialPerturbation (fun _ => 1) (fun _ => 2/5)
      ⟨[1], [1], false, false, 0, -100, 100, some [[1]]⟩ [2] 1 (.int 1) .nothing
      (1/1000000) (1/10000000) = .error .invalidAlpha := by
  have hx : addConstantVec ⟨[1], [1], false, false, 0, -100, 100, some [[1]]⟩ [2]
      = [(2 : ℝ)] := by
    rw [addConstantVec, if_neg]
    simp
  have hdelta : computeOrthogonalProjection ⟨[1], [1], false, false, 0, -100, 100, some [[1]]⟩
      [(2 : ℝ)] (1/1000000) = [-(2 + 1/500000)] := by
    rw [computeOrthogonalProjection, if_neg]
    · norm_num [sumSq, dot, smulVec]
    · simp
  have hadv : vecAdd [(2 : ℝ)] [-(2 + 1/500000)] = [-(1/500000 : ℝ)] := by
    norm_num [vecAdd]
  refine compute_perturbation_invalid_alpha (fun _ => 1) (fun _ => 2/5)
    ⟨[1], [1], false, false, 0, -100, 100, some [[1]]⟩ [2] 1 (.int 1) .nothing
    (1/1000000) (1/10000000) [[1]] rfl (Or.inr rfl) ?_ (fun r => by simp) (fun rs => by simp)
  rw [hx, hdelta, hadv]
  have hpl : predLabel [1] [(2 : ℝ)] = 1 := by
    norm_num [predLabel, dot]
  have hpl0 : predLabel [1] [-(1/500000 : ℝ)] = 0 := by
    norm_num [predLabel, dot]
  rw [if_pos hpl, hpl0]
  norm_num


theorem checkBounds_some_length (lb ub : ℝ) (mode : BoundsMode) (x l : Vec)
    (h : checkBounds lb ub mode x = some l) : l.length = x.length := by
  cases mode with
  | clipping =>
    rw [checkBounds_clipping] at h
    injection h with h
    rw [← h, List.length_map]
  | nothing =>
    rw [checkBounds_nothing] at h
    injection h with h
    rw [← h]
  | missing =>
    rw [checkBounds] at h
    by_cases h1 : ∃ v ∈ x, v < lb
    · rw [if_pos h1] at h
      exact Option.noConfusion h
    · rw [if_neg h1] at h
      have h' : (if ∃ v ∈ x, ub < v then (none : Option Vec) else some x) = some l := h
      by_cases h2 : ∃ v ∈ x, ub < v
      · rw [if_pos h2] at h'
        exact Option.noConfusion h'
      · rw [if_neg h2] at h'
        injection h' with h'
        rw [← h']


theorem checkBounds_some_head (lb ub : ℝ) (mode : BoundsMode) (x l : Vec)
    (hh : x.head? = some 1) (h : checkBounds lb ub mode x = some l) :
    l.head? = some 1 ∨ l.head? = some (clipBoth lb ub 1) := by
  cases mode with
  | clipping =>
    rw [checkBounds_clipping] at h
    injection h with h
    rw [← h]
    right
    rw [List.head?_map, hh]
    rfl
  | nothing =>
    rw [checkBounds_nothing] at h
    injection h with h
    rw [← h]
    exact Or.inl hh
  | missing =>
    rw [checkBounds] at h
    by_cases h1 : ∃ v ∈ x, v < lb
    · rw [if_pos h1] at h
      exact Option.noConfusion h
    · rw [if_neg h1] at h
      have h' : (if ∃ v ∈ x, ub < v then (none : Option Vec) else some x) = some l := h
      by_cases h2 : ∃ v ∈ x, ub < v
      · rw [if_pos h2] at h'
        exact Option.noConfusion h'
      · rw [if_neg h2] at h'
        injection h' with h'
        rw [← h']
        exact Or.inl hh


theorem head_vecAdd_smul (x d : Vec) (l : ℝ) (hx : x.head? = some 1) (hd : d.head? = some 0) :
    (vecAdd x (smulVec l d)).head? = some 1 := by
  cases x with
  | nil => simp at hx
  | cons a t =>
    cases d with
    | nil => simp at hd
    | cons b s =>
      have ha : a = 1 := by simpa using hx
      have hb : b = 0 := by simpa using hd
      simp [vecAdd, smulVec, ha, hb]


theorem stepAlpha_ok_prop (solver : ℝ → Vec → ℕ → Vec → SolveOut) (Phi : ℝ → ℝ) (cov : Mat)
    (E : AdvLogistic) (x : Vec) (y : ℕ) (delta : Vec) (xadv0b : Option Vec) (p : ℝ)
    (mode : BoundsMode) (tol : ℝ) (n : ℕ) (a : ℝ) (r : PerturbResult)
    (hxh : x.head? = some 1) (hxl : x.length = n + 1)
    (hdh : delta.head? = some 0) (hdl : delta.length = n + 1)
    (h0 : alignedVecOK E.lower_bound E.upper_bound n xadv0b)
    (hstep : stepAlpha solver Phi cov E x y delta xadv0b p mode tol a = .ok r) :
    alignedVecOK E.lower_bound E.upper_bound n r.x_adv_star ∧
      alignedVecOK E.lower_bound E.upper_bound n r.x_adv_0 := by
  rw [stepAlpha] at hstep
  by_cases hz : a ≤ 1 - p
  · rw [if_pos hz] at hstep
    injection hstep with hstep
    rw [← hstep]
    refine ⟨fun v hv => ⟨?_, ?_⟩, h0⟩
    · rw [checkBounds_some_length _ _ _ _ _ hv, hxl]
    · exact checkBounds_some_head _ _ _ _ _ hxh hv
  · rw [if_neg hz] at hstep
    cases hs : solver a x y delta with
    | exn e =>
      simp only [hs] at hstep
      exact Except.noConfusion hstep
    | noneV =>
      simp only [hs] at hstep
      exact Except.noConfusion hstep
    | val l =>
      simp only [hs] at hstep
      split_ifs at hstep
      injection hstep with hstep
      rw [← hstep]
      exact ⟨fun v hv => ⟨by rw [checkBounds_some_length _ _ _ _ _ hv, length_vecAdd,
        length_smulVec, hxl, hdl, min_self],
        checkBounds_some_head _ _ _ _ _ (head_vecAdd_smul x delta l hxh hdh) hv⟩, h0⟩


theorem loopAlphas_ok_prop (step : ℝ → Except ExnKind PerturbResult)
    (P : PerturbResult → Prop) (hstep : ∀ a r, step a = .ok r → P r) :
    ∀ (alphas : List ℝ) (rs : List PerturbResult),
      loopAlphas step alphas = .ok rs → ∀ r ∈ rs, P r := by
  intro alphas
  induction alphas with
  | nil =>
    intro rs h
    injection h with h
    rw [← h]
    intro r hr
    simp at hr
  | cons a rest ih =>
    intro rs h
    simp only [loopAlphas] at h
    cases hsa : step a with
    | error e =>
      simp only [hsa] at h
      exact Except.noConfusion h
    | ok r0 =>
      simp only [hsa] at h
      cases hrest : loopAlphas step rest with
      | error e =>
        simp only [hrest] at h
        exact Except.noConfusion h
      | ok rs0 =>
        simp only [hrest] at h
        injection h with h
        rw [← h]
        intro r hr
        rcases List.mem_cons.mp hr with h1 | h2
        · rw [h1]
          exact hstep a r0 hsa
        · exact ih rs0 hrest r h2


/-- Claim C9: when the model has an intercept and the example does not
already carry a constant term (the sklearn-with-intercept configuration,
where the intercept index is 0), every vector in every result the
orchestrator returns — `x_adv_star`, `x_adv_0`, and the `x` returned in the
zero-intensity case — lives in the aligned coordinate space: length
`featureCount + 1`, with the value `1` (or its clipped image) at the
intercept index. -/
theorem compute_perturbation_intercept_alignment (erfinv Phi : ℝ → ℝ) (E : AdvLogistic)
    (x0 : Vec) (y : ℕ) (arg : AlphaArg) (mode : BoundsMode) (tol tolU : ℝ)
    (rs : List PerturbResult)
    (hI : E.model_has_intercept = true) (hC : E.X_has_constant = false)
    (hidx : E.idx_beta0 = 0) (hlen : E.beta_hat_minus0.length = x0.length)
    (hok : computeAdversarialPerturbation erfinv Phi E x0 y arg mode tol tolU = .ok rs) :
    ∀ r ∈ rs, alignedVecOK E.lower_bound E.upper_bound x0.length r.x_adv_star ∧
      alignedVecOK E.lower_bound E.upper_bound x0.length r.x_adv_0 := by
  have hxval : addConstantVec E x0 = 1 :: x0 := by
    rw [addConstantVec, if_pos ⟨hI, hC⟩]
    rfl
  have hdval : computeOrthogonalProjection E (1 :: x0) (1/1000000) =
      0 :: smulVec (1 + 1/1000000)
        (smulVec (-(dot (1 :: x0) E.beta_hat / sumSq E.beta_hat_minus0)) E.beta_hat_minus0) := by
    rw [computeOrthogonalProjection, if_pos hI, hidx]
    rfl
  set w := smulVec (1 + 1/1000000)
    (smulVec (-(dot (1 :: x0) E.beta_hat / sumSq E.beta_hat_minus0)) E.beta_hat_minus0) with hw
  have hwlen : w.length = x0.length := by
    rw [hw, length_smulVec, length_smulVec, hlen]
  have hadv0h : (vecAdd (1 :: x0) (0 :: w)).head? = some 1 := by
    simp [vecAdd]
  have hadv0l : (vecAdd (1 :: x0) (0 :: w)).length = x0.length + 1 := by
    rw [length_vecAdd]
    simp [hwlen]
  rw [computeAdversarialPerturbation] at hok
  simp only [computeAdversarialPerturbationWith, hxval, hdval] at hok
  cases hcp : E.cov_params with
  | none =>
    simp only [hcp] at hok
    exact Except.noConfusion hok
  | some cov =>
    simp only [hcp] at hok
    by_cases hy : y = 0 ∨ y = 1
    · rw [if_pos hy] at hok
      by_cases hA : (if predLabel E.beta_hat (1 :: x0) = y then
          predLabel E.beta_hat (vecAdd (1 :: x0) (0 :: w)) ≠ y
        else predLabel E.beta_hat (vecAdd (1 :: x0) (0 :: w)) = y)
      · rw [if_pos hA] at hok
        have hadv0OK : alignedVecOK E.lower_bound E.upper_bound x0.length
            (checkBounds E.lower_bound E.upper_bound mode (vecAdd (1 :: x0) (0 :: w))) :=
          fun v hv => ⟨by rw [checkBounds_some_length _ _ _ _ _ hv, hadv0l],
            checkBounds_some_head _ _ _ _ _ hadv0h hv⟩
        cases arg with
        | float r0 =>
          exact loopAlphas_ok_prop _ _ (fun a r h => stepAlpha_ok_prop _ Phi cov E (1 :: x0) y
            (0 :: w) _ _ mode tol x0.length a r rfl (by simp) rfl (by simp [hwlen])
            hadv0OK h) [r0] rs hok
        | list rs0 =>
          exact loopAlphas_ok_prop _ _ (fun a r h => stepAlpha_ok_prop _ Phi cov E (1 :: x0) y
            (0 :: w) _ _ mode tol x0.length a r rfl (by simp) rfl (by simp [hwlen])
            hadv0OK h) rs0 rs hok
        | int n0 => exact absurd hok (by simp)
        | npFloat r0 => exact absurd hok (by simp)
        | tuple rs0 => exact absurd hok (by simp)
      · rw [if_neg hA] at hok
        exact absurd hok (by simp)
    · rw [if_neg hy] at hok
      exact absurd hok (by simp)


/-- Witness for C9 at a concrete sklearn-style intercept model
(`beta_hat = [0, 1]`, one feature, intercept index 0), `x0 = [2]`,
`alpha = 0.3`: the returned result's two vectors (`x_adv_star = [1, 2]`,
`x_adv_0 = [1, -1/500000]`) both have length `1 + 1` with the (possibly
clipped) constant 1 at index 0. -/
theorem compute_perturbation_intercept_alignment_witness :
    ([(1 : ℝ), 2] : Vec).length = 1 + 1 ∧
    (([(1 : ℝ), 2] : Vec).head? = some 1 ∨
      ([(1 : ℝ), 2] : Vec).head? = some (clipBoth (-100) 100 1)) ∧
    ([(1 : ℝ), -(1/500000)] : Vec).length = 1 + 1 ∧
    (([(1 : ℝ), -(1/500000)] : Vec).head? = some 1 ∨
      ([(1 : ℝ), -(1/500000)] : Vec).head? = some (clipBoth (-100) 100 1)) := by
  have hx9 : addConstantVec ⟨[0, 1], [1], true, false, 0, -100, 100, some [[1, 0], [0, 1]]⟩ [2]
      = [(1 : ℝ), 2] := by
    rw [addConstantVec, if_pos ⟨rfl, rfl⟩]
    rfl
  have hd9 : computeOrthogonalProjection ⟨[0, 1], [1], true, false, 0, -100, 100,
      some [[1, 0], [0, 1]]⟩ [(1 : ℝ), 2] (1/1000000) = [0, -(2 + 1/500000)] := by
    rw [computeOrthogonalProjection, if_pos rfl]
    norm_num [sumSq, dot, smulVec, insertAt]
  have hadv9 : vecAdd [(1 : ℝ), 2] [(0 : ℝ), -(2 + 1/500000)] = [(1 : ℝ), -(1/500000)] := by
    norm_num [vecAdd]
  have hok : computeAdversarialPerturbation (fun _ => 1) (fun _ => 2/5)
      ⟨[0, 1], [1], true, false, 0, -100, 100, some [[1, 0], [0, 1]]⟩ [2] 1 (.float (3/10))
      .nothing (1/1000000) (1/10000000) =
      .ok [⟨3/10, 0, some [1, 2], some [1, -(1/500000)]⟩] := by
    rw [computeAdversarialPerturbation]
    rw [zero_intensity_aux _ (fun _ => 2/5) _ [2] 1 (3/10) .nothing (1/1000000) [[1, 0], [0, 1]]
      rfl (Or.inr rfl) ?_ ?_]
    · rw [hx9, hd9, hadv9, checkBounds_nothing, checkBounds_nothing]
    · rw [hx9, hd9, hadv9]
      norm_num [predLabel, dot]
    · rw [hx9]
      norm_num [computeProbabilityPredxEqualsY, quadForm, matVec, dot]
  have h := compute_perturbation_intercept_alignment (fun _ => 1) (fun _ => 2/5)
    ⟨[0, 1], [1], true, false, 0, -100, 100, some [[1, 0], [0, 1]]⟩ [2] 1 (.float (3/10))
    .nothing (1/1000000) (1/10000000) _ rfl rfl rfl rfl hok
    ⟨3/10, 0, some [1, 2], some [1, -(1/500000)]⟩ (List.mem_singleton.mpr rfl)
  have a1 := h.1 [1, 2] rfl
  have a2 := h.2 [1, -(1/500000)] rfl
  exact ⟨a1.1, a1.2, a2.1, a2.2⟩


end

end AdvLogit
